import Mathlib

/-
Verification development for the snapshot pipeline of the sniper repository
(apps/execution-ts/src/core.ts together with the SQLite layer db.ts).

Modelling conventions:
* JS millisecond timestamps are `Int`; JS numbers used in price arithmetic are `ℚ`
  (the source never overflows doubles on the inputs considered here, and every
  branch condition below depends only on sign/zero tests that agree on ℚ).
* The quote service returns `outAmount` as a JSON *string* (type `QuoteResp` in
  core.ts).  A string is observed by the source only through (a) its JS
  truthiness (`""` is falsy, every other string — including "0" — is truthy)
  and (b) `Number(...)` of it.  `OutAmt` records exactly this pair.
* Fallible collaborators (on-chain lookup, quote service, directory service,
  filesystem) are oracle parameters; `none`/failure constructors model the
  throw-or-null outcomes that the source's try/catch blocks absorb.
* Code wholly wrapped in try/catch in the source (readSeed, readCache, the
  per-token quote task, jupQuote) is modelled as the total function the catch
  produces; the catch-to-default shape is kept in the branch structure.
-/

namespace Sniper

/-- A row of the resolved token universe (`TokenRow` in core.ts). -/
structure TokenRow where
  address : String
  symbol : Option String := none
  name : Option String := none
  decimals : Option Int := none
  tags : Option (List String) := none
deriving DecidableEq

/-- On-chain mint facts consumed by the snapshot loop.  `decimals` is kept
optional because the source guards the selected decimals with `?? 0`. -/
structure MintInfo where
  decimals : Option Int := none
  mintAuthorityIsNull : Bool := false
  freezeAuthorityIsNull : Bool := false
  isToken2022 : Bool := false
deriving DecidableEq

/-- One row of the `snapshots` table, matching the object pushed in core.ts. -/
structure SnapRow where
  ts : Int
  mint : String
  symbol : Option String
  decimals : Int
  mint_authority_null : Nat
  freeze_authority_null : Nat
  token2022_danger : Nat
  lp_verified : Nat
  tvl_usd : Option ℚ
  impact_1k_pct : Option ℚ
  spread_pct : Option ℚ
  r_1m : ℚ
  r_5m : ℚ
  r_15m : ℚ
  volume_5m : ℚ
  unique_buyers_5m : Nat
  net_buy_usd_5m : ℚ
  top10_pct : Option ℚ
  flags_json : Option String
deriving DecidableEq

/-- One row of the `prices` table. -/
structure PriceRow where
  ts : Int
  mint : String
  price_usd : ℚ
deriving DecidableEq

/-- One row of the `tokens` directory table. -/
structure TokenDirRow where
  mint : String
  symbol : Option String
  name : Option String
  decimals : Int
  verified : Nat
deriving DecidableEq

/-- The SQLite database state (tables of db.ts as lists in insertion order). -/
structure Db where
  snapshots : List SnapRow := []
  prices : List PriceRow := []
  tokens : List TokenDirRow := []
  meta : List (String × String) := []
deriving DecidableEq

/-- `setMeta` of db.ts: INSERT .. ON CONFLICT(key) DO UPDATE. -/
def setMeta (db : Db) (key value : String) : Db :=
  if db.meta.any (fun p => decide (p.1 = key)) then
    { db with meta := db.meta.map (fun p => if p.1 = key then (key, value) else p) }
  else
    { db with meta := db.meta ++ [(key, value)] }

/-- `pruneOlderThanMs` of db.ts: DELETE FROM snapshots/prices WHERE ts < cutoff. -/
def pruneOlderThanMs (db : Db) (olderThanMs : Int) : Db :=
  { db with
    snapshots := db.snapshots.filter (fun r => ! decide (r.ts < olderThanMs)),
    prices := db.prices.filter (fun r => ! decide (r.ts < olderThanMs)) }

/-- `countRows` of db.ts (SELECT COUNT(*)); only the four known tables occur. -/
def countRows (db : Db) (table : String) : Nat :=
  if table = "snapshots" then db.snapshots.length
  else if table = "prices" then db.prices.length
  else if table = "tokens" then db.tokens.length
  else if table = "meta" then db.meta.length
  else 0

/-- One upsert step of `upsertTokens` (ON CONFLICT(mint) DO UPDATE). -/
def upsertTokenRow (l : List TokenDirRow) (r : TokenDirRow) : List TokenDirRow :=
  if l.any (fun p => decide (p.mint = r.mint)) then
    l.map (fun p => if p.mint = r.mint then r else p)
  else l ++ [r]

/-- `upsertTokens` of db.ts. -/
def upsertTokens (db : Db) (rows : List TokenDirRow) : Db :=
  { db with tokens := rows.foldl upsertTokenRow db.tokens }

/-- `insertSnapshots` of db.ts: plain INSERT of every row. -/
def insertSnapshots (db : Db) (rows : List SnapRow) : Db :=
  { db with snapshots := db.snapshots ++ rows }

/-- One step of `insertPrices` (INSERT OR REPLACE keyed on (ts, mint)). -/
def upsertPriceRow (l : List PriceRow) (r : PriceRow) : List PriceRow :=
  if l.any (fun p => decide (p.ts = r.ts ∧ p.mint = r.mint)) then
    l.map (fun p => if p.ts = r.ts ∧ p.mint = r.mint then r else p)
  else l ++ [r]

/-- `insertPrices` of db.ts. -/
def insertPrices (db : Db) (rows : List PriceRow) : Db :=
  { db with prices := rows.foldl upsertPriceRow db.prices }

/-- State of the token cache file `data/jup_verified_cache.json` as observed by
`readCache`: missing, unparseable JSON, JSON whose `items` is not an array, or
a document with an optional `ts` and an item list. -/
inductive CacheFile
  | absent
  | badJson
  | notObj
  | doc (ts : Option Int) (items : List TokenRow)
deriving DecidableEq

/-- State of the seed file `data/tokens.seed.json` as observed by `readSeed`. -/
inductive SeedFile
  | absent
  | badJson
  | notArr
  | doc (items : List TokenRow)
deriving DecidableEq

/-- One entry of the token-directory response; `id` is `none` when the entry's
id is not a string (such entries are filtered out by the source). -/
structure DirEntry where
  id : Option String
  symbol : Option String := none
  name : Option String := none
  decimals : Option Int := none
  tags : Option (List String) := none
deriving DecidableEq

/-- Outcome of the directory call inside `loadVerifiedTokens`: the fetch threw
(absorbed by the catch), returned data that is neither an array nor has a
`tokens` array, or returned an entry list. -/
inductive DirResp
  | fail
  | notList
  | list (entries : List DirEntry)
deriving DecidableEq

/-- The built-in fallback list of `readSeed` in core.ts (SOL plus the
quote-base asset). -/
def builtinSeed (baseMint : String) : List TokenRow :=
  [{ address := "So11111111111111111111111111111111111111112", symbol := some "SOL",
     name := some "Solana", decimals := some 9, tags := some ["verified"] },
   { address := baseMint, symbol := some "USDC", name := some "USD Coin",
     decimals := some 6, tags := some ["verified"] }]

/-- `readSeed` of core.ts: the seed file when present, parseable and a
nonempty array, else the built-in list; always truncated to `limit`. -/
def readSeed (seed : SeedFile) (baseMint : String) (limit : Nat) : List TokenRow :=
  match seed with
  | .doc items =>
    if items.isEmpty then (builtinSeed baseMint).take limit else items.take limit
  | _ => (builtinSeed baseMint).take limit

/-- `readCache` of core.ts.  A soft read ignores the age check; otherwise the
document is returned only while `now - (raw.ts ?? 0) < ttl`. -/
def readCache (cache : CacheFile) (now ttl : Int) (limit : Nat) (soft : Bool) :
    Option (List TokenRow) :=
  match cache with
  | .doc ts items =>
    if soft then some (items.take limit)
    else if now - ts.getD 0 < ttl then some (items.take limit)
    else none
  | _ => none

/-- The directory-to-token mapping inside `loadVerifiedTokens`: `none` when the
fetch failed or the payload had no array or the array was empty; otherwise the
entries with a string id mapped to `TokenRow` (possibly the empty list). -/
def dirToTokens : DirResp → Option (List TokenRow)
  | .fail => none
  | .notList => none
  | .list es =>
    if es.isEmpty then none
    else some (es.filterMap (fun e => e.id.map (fun i =>
      ({ address := i, symbol := e.symbol, name := e.name,
         decimals := e.decimals, tags := e.tags } : TokenRow))))

/-- `loadVerifiedTokens` of core.ts.  Returns the resolved list together with
the cache-file state after the call (the source rewrites the cache on every
path except the fresh-cache hit). -/
def loadVerifiedTokens (limit : Nat) (offline : Bool) (baseMint : String)
    (now ttl : Int) (cache : CacheFile) (seed : SeedFile) (dir : DirResp) :
    List TokenRow × CacheFile :=
  if offline then
    let cached := (readCache cache now ttl limit true).getD (readSeed seed baseMint limit)
    (cached, .doc (some now) cached)
  else
    match readCache cache now ttl limit false with
    | some cached => (cached, cache)
    | none =>
      let fetched := dirToTokens dir
      let chosen :=
        match fetched with
        | some tks =>
          if tks.isEmpty then
            (readCache cache now ttl limit true).getD (readSeed seed baseMint limit)
          else tks
        | none => (readCache cache now ttl limit true).getD (readSeed seed baseMint limit)
      let finalList := chosen.take limit
      (finalList, .doc (some now) finalList)

/-- An error thrown by one HTTP attempt: an identity tag plus the
`e.response.status` field when a response is present. -/
structure FetchErr where
  id : Nat
  status : Option Nat
deriving DecidableEq

/-- Outcome of one HTTP attempt inside `fetchJsonWithBackoff`. -/
inductive Outcome
  | ok (body : Nat)
  | err (e : FetchErr)
deriving DecidableEq

instance {ε α : Type} [DecidableEq ε] [DecidableEq α] : DecidableEq (Except ε α) :=
  fun x y =>
    match x, y with
    | .ok a, .ok b => if h : a = b then isTrue (by rw [h]) else isFalse (by simp [h])
    | .ok _, .error _ => isFalse (by simp)
    | .error _, .ok _ => isFalse (by simp)
    | .error a, .error b => if h : a = b then isTrue (by rw [h]) else isFalse (by simp [h])

/-- Result of `fetchJsonWithBackoff`: the returned body or the raised error
(`none` models raising the initial `undefined` lastErr when attempts = 0),
together with the list of backoff sleeps performed, in order. -/
structure FetchRes where
  result : Except (Option FetchErr) Nat
  delays : List Nat
deriving DecidableEq

/-- The retry classification of core.ts:
`status === 429 || (status >= 500 && status < 600)`; a missing status
(network-level failure) compares false. -/
def retriableB (status : Option Nat) : Bool :=
  match status with
  | some s => decide (s = 429) || (decide (500 ≤ s) && decide (s < 600))
  | none => false

/-- Whether one attempt outcome is a retriable failure. -/
def retrFailB (o : Outcome) : Bool :=
  match o with
  | .ok _ => false
  | .err e => retriableB e.status

/-- The retry loop of `fetchJsonWithBackoff`: `r` attempts remain, `i` is the
absolute attempt index, `last` the last observed failure.  On a retriable
failure the source sleeps `min(maxDelayMs, 400 * 2^i) + jitter` and continues
(also after the final attempt); on any other failure it rethrows at once. -/
def fetchLoop (env : Nat → Outcome) (jit : Nat → Nat) (maxD : Nat) :
    Nat → Nat → Option FetchErr → FetchRes
  | 0, _, last => ⟨.error last, []⟩
  | r + 1, i, _ =>
    match env i with
    | .ok b => ⟨.ok b, []⟩
    | .err e =>
      if retriableB e.status then
        let rest := fetchLoop env jit maxD r (i + 1) (some e)
        ⟨rest.result, (min maxD (400 * 2 ^ i) + jit i) :: rest.delays⟩
      else ⟨.error (some e), []⟩

/-- `fetchJsonWithBackoff(url, headers, attempts, maxDelayMs)` of core.ts, over
an attempt oracle `env` and a jitter oracle `jit` (the source draws jitter as
`Math.floor(Math.random() * 150)`, a value in 0..149). -/
def fetchJsonWithBackoff (env : Nat → Outcome) (jit : Nat → Nat)
    (attempts maxD : Nat) : FetchRes :=
  fetchLoop env jit maxD attempts 0 none

/-- The backoff sleeps of attempts `i, i+1, ..., i+j-1`. -/
def retryDelaysFrom (jit : Nat → Nat) (maxD : Nat) : Nat → Nat → List Nat
  | _, 0 => []
  | i, j + 1 => (min maxD (400 * 2 ^ i) + jit i) :: retryDelaysFrom jit maxD (i + 1) j

/-- The backoff sleeps of the first `j` attempts, in the claim's terms. -/
def retryDelays (jit : Nat → Nat) (maxD : Nat) (j : Nat) : List Nat :=
  (List.range j).map (fun k => min maxD (400 * 2 ^ k) + jit k)

/-- The two JS-level observations of a quote `outAmount` string: its JS
truthiness (`""` is the only falsy string, so the string "0" has
`truthy = true, val = 0`) and its `Number(...)` value. -/
structure OutAmt where
  truthy : Bool
  val : ℚ
deriving DecidableEq

/-- A response of the Jupiter quote endpoint as used by core.ts. -/
structure QuoteResp where
  outAmount : OutAmt
  priceImpactPct : Option ℚ := none
deriving DecidableEq

/-- The per-token entry written into `metricsMap`. -/
structure TokenMetrics where
  impact_1k_pct : Option ℚ
  spread_pct : Option ℚ
deriving DecidableEq

/-- The environment-independent configuration of core.ts (zod defaults). -/
structure SnapCfg where
  rpcUrl : String := "https://api.mainnet-beta.solana.com"
  tokenLimit : Nat := 50
  offline : Bool := false
  quotesEnabled : Bool := false
  quoteMaxTokens : Nat := 25
  quoteImpactUsd : ℚ := 1000
  quoteSpreadUsd : ℚ := 20
  baseMint : String := "EPjFWdd5AufqSSqeM2qN1xzybapC8G4wEGGkZwyTDt1v"

/-- JS `Math.round` on the rational model. -/
def jround (q : ℚ) : Int := ⌊q + 1 / 2⌋

/-- The amount string `BigInt(n).toString()`: always a nonempty string. -/
def amtOfInt (n : Int) : OutAmt := { truthy := true, val := (n : ℚ) }

/-- The literal `1e-12` used as the substituted denominator in core.ts. -/
def jsEps : ℚ := 1 / 1000000000000

/-- JS `x || d` on numbers (0 is the falsy case; ℚ has no NaN). -/
def jsOr (x d : ℚ) : ℚ := if x = 0 then d else x

/-- JS `10 ** d` for an integer exponent. -/
def jpow10 (d : Int) : ℚ :=
  if 0 ≤ d then (10 : ℚ) ^ d.toNat else 1 / (10 : ℚ) ^ (-d).toNat

/-- The per-token quote task of core.ts (lines 186-235): the impact quote, the
buy-leg/sell-leg round trip, and the resulting metricsMap entry together with
the mid price that is pushed as a price row when finite and positive.  The
`quote inMint outMint amount` oracle plays `jupQuote`, which returns the parsed
response or null (its catch absorbs every failure). -/
def quoteOne (cfg : SnapCfg) (quote : String → String → OutAmt → Option QuoteResp)
    (t : TokenRow) : TokenMetrics × Option ℚ :=
  let dec : Int := t.decimals.getD 0
  let qi := quote cfg.baseMint t.address (amtOfInt (jround (cfg.quoteImpactUsd * 1000000)))
  let impactPct : Option ℚ := match qi with | some q => q.priceImpactPct | none => none
  match quote cfg.baseMint t.address (amtOfInt (jround (cfg.quoteSpreadUsd * 1000000))) with
  | none => ({ impact_1k_pct := impactPct, spread_pct := none }, none)
  | some qBuy =>
    if qBuy.outAmount.truthy then
      let outTok := qBuy.outAmount.val / jpow10 dec
      let pBuy := cfg.quoteSpreadUsd / jsOr outTok jsEps
      match quote t.address cfg.baseMint qBuy.outAmount with
      | none => ({ impact_1k_pct := impactPct, spread_pct := none }, none)
      | some qSell =>
        if qSell.outAmount.truthy then
          let outUsd := qSell.outAmount.val / 1000000
          let inTok := qBuy.outAmount.val / jpow10 dec
          let pSell := jsOr outUsd 0 / jsOr inTok jsEps
          let mid := (pBuy + pSell) / 2
          if 0 < mid then
            ({ impact_1k_pct := impactPct,
               spread_pct := some (((pBuy - pSell) / mid) * 100) }, some mid)
          else ({ impact_1k_pct := impactPct, spread_pct := none }, none)
        else ({ impact_1k_pct := impactPct, spread_pct := none }, none)
    else ({ impact_1k_pct := impactPct, spread_pct := none }, none)

/-- The merge step applying a metricsMap entry onto a snapshot row
(`typeof m.x === "number"` guards: only present values overwrite). -/
def applyMetricsTo (m : TokenMetrics) (r : SnapRow) : SnapRow :=
  { r with
    impact_1k_pct := match m.impact_1k_pct with | some v => some v | none => r.impact_1k_pct,
    spread_pct := match m.spread_pct with | some v => some v | none => r.spread_pct }

/-- Lookup in `metricsMap`: the JS object keeps the last assignment per key. -/
def metricsLookup (quoted : List (String × TokenMetrics)) (a : String) :
    Option TokenMetrics :=
  (quoted.reverse.find? (fun p => decide (p.1 = a))).map (fun p => p.2)

/-- The body of the merge loop of core.ts lines 246-251 for one row. -/
def mergeMetrics (quoted : List (String × TokenMetrics)) (r : SnapRow) : SnapRow :=
  match metricsLookup quoted r.mint with
  | none => r
  | some m => applyMetricsTo m r

/-- The snapshot row pushed for a token whose on-chain lookup succeeded
(core.ts lines 138-158). -/
def mkSnapRow (now : Int) (t : TokenRow) (mi : MintInfo) : SnapRow :=
  { ts := now, mint := t.address, symbol := t.symbol,
    decimals := (match t.decimals with | some d => some d | none => mi.decimals).getD 0,
    mint_authority_null := if mi.mintAuthorityIsNull then 1 else 0,
    freeze_authority_null := if mi.freezeAuthorityIsNull then 1 else 0,
    token2022_danger := 0, lp_verified := 1,
    tvl_usd := none, impact_1k_pct := none, spread_pct := none,
    r_1m := 0, r_5m := 0, r_15m := 0, volume_5m := 0,
    unique_buyers_5m := 0, net_buy_usd_5m := 0, top10_pct := none, flags_json := none }

/-- The token-directory row pushed alongside it (core.ts lines 160-166). -/
def mkDirRow (t : TokenRow) (mi : MintInfo) : TokenDirRow :=
  { mint := t.address, symbol := t.symbol, name := t.name,
    decimals := (match t.decimals with | some d => some d | none => mi.decimals).getD 0,
    verified := 1 }

/-- The on-chain fan-out (core.ts lines 122-172): each token whose lookup
succeeds contributes one snapshot row and one directory row; a failed or
not-found lookup is skipped.  `chain` folds PublicKey construction,
getAccountInfo and getMint into one `Option MintInfo` oracle. -/
def chainPhase (now : Int) (chain : String → Option MintInfo)
    (tokens : List TokenRow) : List SnapRow × List TokenDirRow :=
  (tokens.filterMap (fun t => (chain t.address).map (mkSnapRow now t)),
   tokens.filterMap (fun t => (chain t.address).map (fun mi => mkDirRow t mi)))

/-- The result record returned by `snapshot` (prunedRows flattened). -/
structure SnapshotResult where
  ts : Int
  savedTokens : Nat
  prunedSnapshots : Nat
  prunedPrices : Nat
deriving DecidableEq

/-- Everything a run produces: the result summary, the batch handed to the
store (snapshot rows, directory rows, price rows) and the database state. -/
structure SnapOut where
  result : SnapshotResult
  rows : List SnapRow
  tokenRows : List TokenDirRow
  priceRows : List PriceRow
  db : Db
deriving DecidableEq

/-- `snapshot(db)` of core.ts over explicit oracles: `now` is the `Date.now()`
taken at the start, `tokens` the already-resolved universe (the resolver is
modelled separately by `loadVerifiedTokens`; a resolver throw yields `[]`),
`chain` the on-chain lookup and `quote` the quote service. -/
def snapshot (cfg : SnapCfg) (now : Int) (tokens : List TokenRow)
    (chain : String → Option MintInfo)
    (quote : String → String → OutAmt → Option QuoteResp) (db : Db) : SnapOut :=
  let cutoff := now - 48 * 60 * 60 * 1000
  let beforeSnaps := countRows db "snapshots"
  let beforePrices := countRows db "prices"
  let db1 := pruneOlderThanMs db cutoff
  let afterSnaps := countRows db1 "snapshots"
  let afterPrices := countRows db1 "prices"
  let db2 := setMeta (setMeta (setMeta db1 "last_snapshot_ts" (toString now))
      "rpc_url" cfg.rpcUrl) "token_limit" (toString cfg.tokenLimit)
  if tokens.isEmpty then
    { result := { ts := now, savedTokens := 0,
                  prunedSnapshots := beforeSnaps - afterSnaps,
                  prunedPrices := beforePrices - afterPrices },
      rows := [], tokenRows := [], priceRows := [], db := db2 }
  else
    let phase := chainPhase now chain tokens
    let rows := phase.1
    let tokenRows := phase.2
    let toQuote :=
      if !cfg.offline && cfg.quotesEnabled then
        (tokens.filter (fun t => ! decide (t.address = cfg.baseMint))).take
          (min cfg.quoteMaxTokens tokens.length)
      else []
    let quoted := toQuote.map (fun t => (t.address, quoteOne cfg quote t))
    let priceRows :=
      (toQuote.filterMap (fun t => ((quoteOne cfg quote t).2).map (fun mid =>
        ({ ts := now, mint := t.address, price_usd := mid } : PriceRow)))) ++
      [{ ts := now, mint := cfg.baseMint, price_usd := 1 }]
    let rows2 :=
      if quoted.isEmpty then rows
      else rows.map (mergeMetrics (quoted.map (fun p => (p.1, p.2.1))))
    let db3 := if tokenRows.isEmpty then db2 else upsertTokens db2 tokenRows
    let db4 := if rows2.isEmpty then db3 else insertSnapshots db3 rows2
    let db5 := if priceRows.isEmpty then db4 else insertPrices db4 priceRows
    { result := { ts := now, savedTokens := rows2.length,
                  prunedSnapshots := beforeSnaps - afterSnaps,
                  prunedPrices := beforePrices - afterPrices },
      rows := rows2, tokenRows := tokenRows, priceRows := priceRows, db := db5 }

/-- Concrete fixtures used by counterexamples and witnesses. -/
def dbEmpty : Db := {}

def tokB : TokenRow := { address := "B", decimals := some 6 }

def tokX : TokenRow := { address := "X", decimals := some 6 }

def tokOther : TokenRow := { address := "OTHER" }

def cfgB : SnapCfg := { baseMint := "B" }

def cfgBQ : SnapCfg := { baseMint := "B", quotesEnabled := true }

def miB : MintInfo :=
  { decimals := some 6, mintAuthorityIsNull := true, freezeAuthorityIsNull := true }

/-- On-chain oracle where only the base asset "B" resolves. -/
def chainOnlyB : String → Option MintInfo :=
  fun a => if a = "B" then some miB else none

/-- Quote oracle for the degenerate zero-output round trip: every quote
involving token "X" answers with the JS string "0" (truthy, value 0, no
priceImpactPct — so the impact metric stays null on every leg). -/
def quoteZero : String → String → OutAmt → Option QuoteResp :=
  fun i o _ =>
    if i = "X" ∨ o = "X" then some { outAmount := { truthy := true, val := 0 } }
    else none

/-- Quote oracle for a successful $20 round trip on token "X": buying "X"
returns 2 tokens (2000000 raw at 6 decimals), selling returns $19. -/
def quoteRoundTrip : String → String → OutAmt → Option QuoteResp :=
  fun i o _ =>
    if i = "B" ∧ o = "X" then some { outAmount := { truthy := true, val := 2000000 } }
    else if i = "X" ∧ o = "B" then some { outAmount := { truthy := true, val := 19000000 } }
    else none

/-- Attempt oracle that fails every attempt with HTTP 500 (attempt `i` carries
error id `i`). -/
def envAll500 : Nat → Outcome := fun i => .err { id := i, status := some 500 }

/-- Attempt oracle: two retriable failures, then success with body 7. -/
def envOkAt2 : Nat → Outcome :=
  fun i => if i < 2 then .err { id := i, status := some 503 } else .ok 7

/-- The jitter draw `Math.floor(Math.random() * 150)` can be 0. -/
def zeroJit : Nat → Nat := fun _ => 0

/-- A cache document written at time 5 (fresh for `now = 100, ttl = 1000`). -/
def cacheFresh : CacheFile := .doc (some 5) [tokOther]

/-- A minimal snapshot row at a given timestamp (retention fixtures). -/
def snapAt (t : Int) : SnapRow :=
  { ts := t, mint := "M", symbol := none, decimals := 0,
    mint_authority_null := 0, freeze_authority_null := 0,
    token2022_danger := 0, lp_verified := 0,
    tvl_usd := none, impact_1k_pct := none, spread_pct := none,
    r_1m := 0, r_5m := 0, r_15m := 0, volume_5m := 0,
    unique_buyers_5m := 0, net_buy_usd_5m := 0, top10_pct := none, flags_json := none }

/-- A database holding one snapshot row 49 hours old and one 47 hours old. -/
def dbRetention (now : Int) : Db :=
  { snapshots := [snapAt (now - 49 * 3600000), snapAt (now - 47 * 3600000)] }

end Sniper

namespace Sniper

lemma retrFail_elim {o : Outcome} (h : retrFailB o = true) :
    ∃ e, o = .err e ∧ retriableB e.status = true := by
  cases o with
  | ok b => simp [retrFailB] at h
  | err e => exact ⟨e, rfl, h⟩

lemma retryDelaysFrom_eq (jit : Nat → Nat) (maxD : Nat) :
    ∀ (j i : Nat), retryDelaysFrom jit maxD i j =
      (List.range j).map (fun k => min maxD (400 * 2 ^ (i + k)) + jit (i + k)) := by
  intro j
  induction j with
  | zero => intro i; simp [retryDelaysFrom]
  | succ j ih =>
    intro i
    rw [retryDelaysFrom, List.range_succ_eq_map, List.map_cons, List.map_map, ih (i + 1)]
    have hik : ∀ k, i + 1 + k = i + (k + 1) := fun k => by omega
    simp [Function.comp_def, hik, Nat.succ_eq_add_one]

lemma retryDelaysFrom_zero (jit : Nat → Nat) (maxD j : Nat) :
    retryDelaysFrom jit maxD 0 j = retryDelays jit maxD j := by
  rw [retryDelaysFrom_eq]
  simp [retryDelays]

lemma fetchLoop_ok (env : Nat → Outcome) (jit : Nat → Nat) (maxD : Nat) :
    ∀ (j r i : Nat) (last : Option FetchErr) (b : Nat), j < r →
      (∀ k, k < j → retrFailB (env (i + k)) = true) → env (i + j) = .ok b →
      fetchLoop env jit maxD r i last = ⟨.ok b, retryDelaysFrom jit maxD i j⟩ := by
  intro j
  induction j with
  | zero =>
    intro r i last b hr _ hok
    obtain ⟨r', rfl⟩ := Nat.exists_eq_succ_of_ne_zero (Nat.pos_iff_ne_zero.mp hr)
    rw [Nat.add_zero] at hok
    rw [fetchLoop, hok]
    simp [retryDelaysFrom]
  | succ j ih =>
    intro r i last b hr hfail hok
    obtain ⟨r', rfl⟩ := Nat.exists_eq_succ_of_ne_zero
      (Nat.pos_iff_ne_zero.mp (Nat.lt_of_lt_of_le (Nat.zero_lt_succ j) (Nat.le_of_lt hr)))
    obtain ⟨e0, henv, hretr⟩ := retrFail_elim (by simpa using hfail 0 (Nat.zero_lt_succ j))
    rw [fetchLoop, henv]
    simp only [hretr, eq_self_iff_true, if_true]
    rw [ih r' (i + 1) (some e0) b (Nat.lt_of_succ_lt_succ hr)
      (fun k hk => by
        have h := hfail (k + 1) (Nat.succ_lt_succ hk)
        have hh : i + (k + 1) = i + 1 + k := by omega
        rwa [hh] at h)
      (by
        have hh : i + (j + 1) = i + 1 + j := by omega
        rwa [hh] at hok)]
    rw [retryDelaysFrom]

lemma fetchLoop_term (env : Nat → Outcome) (jit : Nat → Nat) (maxD : Nat) :
    ∀ (j r i : Nat) (last : Option FetchErr) (e : FetchErr), j < r →
      (∀ k, k < j → retrFailB (env (i + k)) = true) → env (i + j) = .err e →
      retriableB e.status = false →
      fetchLoop env jit maxD r i last = ⟨.error (some e), retryDelaysFrom jit maxD i j⟩ := by
  intro j
  induction j with
  | zero =>
    intro r i last e hr _ herr hterm
    obtain ⟨r', rfl⟩ := Nat.exists_eq_succ_of_ne_zero (Nat.pos_iff_ne_zero.mp hr)
    rw [Nat.add_zero] at herr
    rw [fetchLoop, herr]
    simp [retryDelaysFrom, hterm]
  | succ j ih =>
    intro r i last e hr hfail herr hterm
    obtain ⟨r', rfl⟩ := Nat.exists_eq_succ_of_ne_zero
      (Nat.pos_iff_ne_zero.mp (Nat.lt_of_lt_of_le (Nat.zero_lt_succ j) (Nat.le_of_lt hr)))
    obtain ⟨e0, henv, hretr⟩ := retrFail_elim (by simpa using hfail 0 (Nat.zero_lt_succ j))
    rw [fetchLoop, henv]
    simp only [hretr, eq_self_iff_true, if_true]
    rw [ih r' (i + 1) (some e0) e (Nat.lt_of_succ_lt_succ hr)
      (fun k hk => by
        have h := hfail (k + 1) (Nat.succ_lt_succ hk)
        have hh : i + (k + 1) = i + 1 + k := by omega
        rwa [hh] at h)
      (by
        have hh : i + (j + 1) = i + 1 + j := by omega
        rwa [hh] at herr) hterm]
    rw [retryDelaysFrom]

lemma fetchLoop_allfail (env : Nat → Outcome) (jit : Nat → Nat) (maxD : Nat) :
    ∀ (r i : Nat) (last : Option FetchErr) (e : FetchErr), 0 < r →
      (∀ k, k < r → retrFailB (env (i + k)) = true) → env (i + (r - 1)) = .err e →
      fetchLoop env jit maxD r i last = ⟨.error (some e), retryDelaysFrom jit maxD i r⟩ := by
  intro r
  induction r with
  | zero => intro i last e h; exact absurd h (Nat.lt_irrefl 0)
  | succ r ih =>
    intro i last e _ hfail herr
    obtain ⟨e0, henv, hretr⟩ := retrFail_elim (by simpa using hfail 0 (Nat.zero_lt_succ r))
    rw [fetchLoop, henv]
    simp only [hretr, eq_self_iff_true, if_true]
    cases r with
    | zero =>
      simp only [Nat.succ_sub_one, Nat.add_zero] at herr
      rw [henv] at herr
      cases herr
      rw [fetchLoop]
      simp [retryDelaysFrom]
    | succ r' =>
      rw [ih (i + 1) (some e0) e (Nat.zero_lt_succ r')
        (fun k hk => by
          have h := hfail (k + 1) (Nat.succ_lt_succ hk)
          have hh : i + (k + 1) = i + 1 + k := by omega
          rwa [hh] at h)
        (by
          have hh : i + (r' + 1 + 1 - 1) = i + 1 + (r' + 1 - 1) := by omega
          rwa [hh] at herr)]
      simp [retryDelaysFrom]

lemma mergeMetrics_ts (q : List (String × TokenMetrics)) (r : SnapRow) :
    (mergeMetrics q r).ts = r.ts := by
  unfold mergeMetrics
  cases metricsLookup q r.mint <;> rfl

lemma chainPhase_ts (now : Int) (chain : String → Option MintInfo) (tokens : List TokenRow) :
    ∀ r ∈ (chainPhase now chain tokens).1, r.ts = now := by
  intro r hr
  simp only [chainPhase, List.mem_filterMap] at hr
  obtain ⟨t, _, ht⟩ := hr
  obtain ⟨mi, _, rfl⟩ := Option.map_eq_some'.mp ht
  rfl

lemma mem_ite_map {α : Type} (c : Prop) [Decidable c] (f : α → α) (l : List α) (r : α)
    (hr : r ∈ (if c then l else l.map f)) : r ∈ l ∨ ∃ r0 ∈ l, r = f r0 := by
  split at hr
  · exact Or.inl hr
  · obtain ⟨r0, h0, rfl⟩ := List.mem_map.mp hr
    exact Or.inr ⟨r0, h0, rfl⟩

lemma readSeed_length (seed : SeedFile) (baseMint : String) (limit : Nat) :
    (readSeed seed baseMint limit).length ≤ limit := by
  unfold readSeed
  cases seed <;> simp
  split <;> simp

lemma readCache_length (cache : CacheFile) (now ttl : Int) (limit : Nat) (soft : Bool)
    (l : List TokenRow) (h : readCache cache now ttl limit soft = some l) :
    l.length ≤ limit := by
  unfold readCache at h
  cases cache <;> simp at h
  split at h
  · cases h; simp
  · split at h
    · cases h; simp
    · cases h

lemma fallback_cases (cache : CacheFile) (seed : SeedFile) (baseMint : String)
    (now ttl : Int) (limit : Nat) :
    (∃ cts citems, cache = CacheFile.doc cts citems ∧
      (readCache cache now ttl limit true).getD (readSeed seed baseMint limit) =
        citems.take limit) ∨
    (∃ sitems, seed = SeedFile.doc sitems ∧
      (readCache cache now ttl limit true).getD (readSeed seed baseMint limit) =
        sitems.take limit) ∨
    (readCache cache now ttl limit true).getD (readSeed seed baseMint limit) =
      (builtinSeed baseMint).take limit := by
  cases cache with
  | doc cts citems => exact Or.inl ⟨cts, citems, rfl, by simp [readCache]⟩
  | absent =>
    cases seed with
    | doc sitems =>
      by_cases hs : sitems.isEmpty
      · refine Or.inr (Or.inr ?_)
        simp [readCache, readSeed, hs]
      · refine Or.inr (Or.inl ⟨sitems, rfl, ?_⟩)
        simp [readCache, readSeed, hs]
    | absent => refine Or.inr (Or.inr ?_); simp [readCache, readSeed]
    | badJson => refine Or.inr (Or.inr ?_); simp [readCache, readSeed]
    | notArr => refine Or.inr (Or.inr ?_); simp [readCache, readSeed]
  | badJson =>
    cases seed with
    | doc sitems =>
      by_cases hs : sitems.isEmpty
      · refine Or.inr (Or.inr ?_)
        simp [readCache, readSeed, hs]
      · refine Or.inr (Or.inl ⟨sitems, rfl, ?_⟩)
        simp [readCache, readSeed, hs]
    | absent => refine Or.inr (Or.inr ?_); simp [readCache, readSeed]
    | badJson => refine Or.inr (Or.inr ?_); simp [readCache, readSeed]
    | notArr => refine Or.inr (Or.inr ?_); simp [readCache, readSeed]
  | notObj =>
    cases seed with
    | doc sitems =>
      by_cases hs : sitems.isEmpty
      · refine Or.inr (Or.inr ?_)
        simp [readCache, readSeed, hs]
      · refine Or.inr (Or.inl ⟨sitems, rfl, ?_⟩)
        simp [readCache, readSeed, hs]
    | absent => refine Or.inr (Or.inr ?_); simp [readCache, readSeed]
    | badJson => refine Or.inr (Or.inr ?_); simp [readCache, readSeed]
    | notArr => refine Or.inr (Or.inr ?_); simp [readCache, readSeed]

lemma fallback_length (cache : CacheFile) (seed : SeedFile) (baseMint : String)
    (now ttl : Int) (limit : Nat) :
    ((readCache cache now ttl limit true).getD (readSeed seed baseMint limit)).length ≤
      limit := by
  cases h : readCache cache now ttl limit true with
  | none => simp [readSeed_length]
  | some l => simp [readCache_length cache now ttl limit true l h]

end Sniper

namespace Sniper

/-- C1 counterexample: with universe [BASE, X], X's lookup failing but BASE's
lookup succeeding and quotes disabled, the run saves one snapshot row (for
BASE), so savedTokenCount is 1, not 0 as the claim states. -/
theorem C1_counterexample :
    (snapshot cfgB 1000 [tokB, tokX] chainOnlyB (fun _ _ _ => none)
        dbEmpty).result.savedTokens = 1 ∧
    (snapshot cfgB 1000 [tokB, tokX] chainOnlyB (fun _ _ _ => none) dbEmpty).rows =
      [mkSnapRow 1000 tokB miB] := by
  constructor <;> decide

/-- C1 (amended): for a run whose universe is exactly [BASE, X], in which both
BASE's and X's on-chain lookups fail and the quote fan-out is inactive (quotes
disabled or offline), the batch holds no SnapshotRows (in particular none for
X), exactly one PriceRow — BASE at price 1.0 — and savedTokens is 0. -/
theorem C1_amended (cfg : SnapCfg) (now : Int) (tb tx : TokenRow)
    (chain : String → Option MintInfo)
    (quote : String → String → OutAmt → Option QuoteResp) (db : Db)
    (_htb : tb.address = cfg.baseMint)
    (hb : chain tb.address = none) (hx : chain tx.address = none)
    (hq : cfg.quotesEnabled = false ∨ cfg.offline = true) :
    (snapshot cfg now [tb, tx] chain quote db).rows = [] ∧
    (snapshot cfg now [tb, tx] chain quote db).priceRows =
      [{ ts := now, mint := cfg.baseMint, price_usd := 1 }] ∧
    (snapshot cfg now [tb, tx] chain quote db).result.savedTokens = 0 := by
  have hcond : (!cfg.offline && cfg.quotesEnabled) = false := by
    rcases hq with h | h <;> simp [h]
  simp [snapshot, chainPhase, hb, hx, hcond]

/-- C1 witness: the amended theorem applied at a concrete run. -/
theorem C1_amended_witness :
    (snapshot cfgB 1000 [tokB, tokX] (fun _ => none) (fun _ _ _ => none) dbEmpty).rows = [] ∧
    (snapshot cfgB 1000 [tokB, tokX] (fun _ => none) (fun _ _ _ => none) dbEmpty).priceRows =
      [{ ts := 1000, mint := cfgB.baseMint, price_usd := 1 }] ∧
    (snapshot cfgB 1000 [tokB, tokX] (fun _ => none) (fun _ _ _ => none)
        dbEmpty).result.savedTokens = 0 :=
  C1_amended cfgB 1000 tokB tokX (fun _ => none) (fun _ _ _ => none) dbEmpty rfl rfl rfl
    (Or.inl rfl)

/-- C2: evaluating the code at the failing input.  When the buy-leg quote
returns the output-amount string "0" (JS-truthy, numeric value 0) and the
sell leg answers likewise, the metrics computation does NOT yield a null
spread: the 1e-12 guard turns the buy price into 2e13, the mid price into
1e13 > 0, the spread into 200, and a PriceRow for the token is pushed —
contradicting the claim that a zero output amount yields spread = null and
no price row. -/
theorem C2_code_evaluation :
    quoteOne cfgBQ quoteZero tokX =
      ({ impact_1k_pct := none, spread_pct := some 200 }, some 10000000000000) ∧
    (snapshot cfgBQ 1000 [tokB, tokX] (fun _ => none) quoteZero dbEmpty).priceRows =
      [{ ts := 1000, mint := "X", price_usd := 10000000000000 },
       { ts := 1000, mint := "B", price_usd := 1 }] := by
  have h6 : Int.toNat 6 = 6 := rfl
  have hq : quoteOne cfgBQ quoteZero tokX =
      ({ impact_1k_pct := none, spread_pct := some 200 }, some 10000000000000) := by
    unfold quoteOne
    norm_num [cfgBQ, quoteZero, tokX, jsOr, jsEps, jpow10, amtOfInt, h6]
  refine ⟨hq, ?_⟩
  have hB : tokB.address = "B" := rfl
  have hX : tokX.address = "X" := rfl
  have hbm : cfgBQ.baseMint = "B" := rfl
  have hqe : cfgBQ.quotesEnabled = true := rfl
  have hof : cfgBQ.offline = false := rfl
  have hmax : cfgBQ.quoteMaxTokens = 25 := rfl
  simp [snapshot, chainPhase, hq, hB, hX, hbm, hqe, hof, hmax, List.filter]

/-- C3 counterexample: the jitter draw floor(random()*150) may be 0, so a
retried attempt can sleep exactly min(maxDelay, 400*2^i) with no added jitter,
refuting the claim's "plus nonzero random jitter". -/
theorem C3_counterexample :
    fetchJsonWithBackoff envAll500 zeroJit 2 1500 =
      { result := .error (some { id := 1, status := some 500 }), delays := [400, 800] } ∧
    ¬ ∃ jtr, 0 < jtr ∧ 400 = min 1500 (400 * 2 ^ 0) + jtr := by
  refine ⟨by decide, ?_⟩
  rintro ⟨jtr, hpos, heq⟩
  norm_num at heq
  omega

/-- C3 (amended): for fetch(url, headers, n, maxDelay); an attempt failing with
status 429 or 500-599 is retried after sleeping min(maxDelay, 400*2^i) plus a
random jitter below 150 ms (possibly zero); after n such failures the last
observed failure is raised (after its sleep); any other failure — including a
network failure with no status — is re-raised immediately; a successful
attempt returns the body immediately. -/
theorem C3_amended (env : Nat → Outcome) (jit : Nat → Nat) (n maxD : Nat) :
    (∀ j b, j < n → (∀ k, k < j → retrFailB (env k) = true) → env j = .ok b →
      fetchJsonWithBackoff env jit n maxD = ⟨.ok b, retryDelays jit maxD j⟩) ∧
    (∀ j e, j < n → (∀ k, k < j → retrFailB (env k) = true) → env j = .err e →
      retriableB e.status = false →
      fetchJsonWithBackoff env jit n maxD = ⟨.error (some e), retryDelays jit maxD j⟩) ∧
    (∀ e, 0 < n → (∀ k, k < n → retrFailB (env k) = true) → env (n - 1) = .err e →
      fetchJsonWithBackoff env jit n maxD = ⟨.error (some e), retryDelays jit maxD n⟩) := by
  refine ⟨?_, ?_, ?_⟩
  · intro j b hj hf hok
    rw [fetchJsonWithBackoff, ← retryDelaysFrom_zero]
    exact fetchLoop_ok env jit maxD j n 0 none b hj
      (fun k hk => by simpa using hf k hk) (by simpa using hok)
  · intro j e hj hf herr hterm
    rw [fetchJsonWithBackoff, ← retryDelaysFrom_zero]
    exact fetchLoop_term env jit maxD j n 0 none e hj
      (fun k hk => by simpa using hf k hk) (by simpa using herr) hterm
  · intro e hn hf herr
    rw [fetchJsonWithBackoff, ← retryDelaysFrom_zero]
    exact fetchLoop_allfail env jit maxD n 0 none e hn
      (fun k hk => by simpa using hf k hk) (by simpa using herr)

/-- C3 witness: two 503 failures then success; the run returns body 7 after
sleeping 400 and 800 ms. -/
theorem C3_amended_witness :
    fetchJsonWithBackoff envOkAt2 zeroJit 3 1500 =
      { result := .ok 7, delays := [400, 800] } := by
  have h := (C3_amended envOkAt2 zeroJit 3 1500).1 2 7 (by decide) (by decide) (by decide)
  rw [h]
  simp [retryDelays, zeroJit, List.range_succ]

/-- C4 counterexample: with no cache but a seed FILE on disk, the first
offline resolve returns the file's list, not the built-in seed list. -/
theorem C4_counterexample :
    (loadVerifiedTokens 2 true "B" 1000 0 .absent (SeedFile.doc [tokOther]) .fail).1 ≠
      (builtinSeed "B").take 2 := by decide

/-- C4 (amended): with offline mode active, no pre-existing cache file and no
seed file on disk, resolve(limit) returns the built-in seed list truncated to
limit, and a second offline resolve returns exactly that same list, now read
from the cache document written by the first call. -/
theorem C4_amended (limit : Nat) (baseMint : String) (now now2 ttl ttl2 : Int)
    (dir dir2 : DirResp) (seed2 : SeedFile) :
    (loadVerifiedTokens limit true baseMint now ttl .absent .absent dir).1 =
      (builtinSeed baseMint).take limit ∧
    (loadVerifiedTokens limit true baseMint now2 ttl2
        (loadVerifiedTokens limit true baseMint now ttl .absent .absent dir).2 seed2 dir2).1 =
      (loadVerifiedTokens limit true baseMint now ttl .absent .absent dir).1 := by
  constructor
  · simp [loadVerifiedTokens, readCache, readSeed]
  · simp [loadVerifiedTokens, readCache, readSeed, List.take_take]

/-- C5 counterexample: on the fresh-cache-hit path the cache file is returned
unchanged — its stored timestamp (5) is not replaced by the current time
(100), so the chosen list is NOT persisted with the current timestamp on that
path. -/
theorem C5_counterexample :
    (loadVerifiedTokens 3 false "B" 100 1000 cacheFresh .absent .fail).2 = cacheFresh ∧
    cacheFresh ≠ CacheFile.doc (some 100) [tokOther] := by
  constructor <;> decide

/-- C5 (amended): every resolve path returns at most limit tokens; on every
path except the fresh-cache hit (which returns the cached list and leaves the
file untouched) the returned list is persisted to the cache with the current
timestamp before returning. -/
theorem C5_amended (limit : Nat) (offline : Bool) (baseMint : String) (now ttl : Int)
    (cache : CacheFile) (seed : SeedFile) (dir : DirResp) :
    (loadVerifiedTokens limit offline baseMint now ttl cache seed dir).1.length ≤ limit ∧
    ((loadVerifiedTokens limit offline baseMint now ttl cache seed dir).2 =
        CacheFile.doc (some now)
          (loadVerifiedTokens limit offline baseMint now ttl cache seed dir).1 ∨
      (offline = false ∧
        readCache cache now ttl limit false =
          some (loadVerifiedTokens limit offline baseMint now ttl cache seed dir).1 ∧
        (loadVerifiedTokens limit offline baseMint now ttl cache seed dir).2 = cache)) := by
  cases offline with
  | true =>
    constructor
    · simp [loadVerifiedTokens, fallback_length]
    · left; simp [loadVerifiedTokens]
  | false =>
    cases h : readCache cache now ttl limit false with
    | some cached =>
      constructor
      · simp [loadVerifiedTokens, h, readCache_length cache now ttl limit false cached h]
      · right
        simp [loadVerifiedTokens, h]
    | none =>
      constructor
      · simp [loadVerifiedTokens, h]
      · left
        simp [loadVerifiedTokens, h]

/-- C6: prune(cutoff) deletes exactly the snapshot and price rows with
timestamp strictly below cutoff; concretely with cutoff = now - 48h, a row at
now - 49h is deleted and a row at now - 47h is retained. -/
theorem C6_prune_exact :
    (∀ (db : Db) (cutoff : Int) (r : SnapRow),
      r ∈ (pruneOlderThanMs db cutoff).snapshots ↔ r ∈ db.snapshots ∧ ¬ r.ts < cutoff) ∧
    (∀ (db : Db) (cutoff : Int) (p : PriceRow),
      p ∈ (pruneOlderThanMs db cutoff).prices ↔ p ∈ db.prices ∧ ¬ p.ts < cutoff) ∧
    (∀ now : Int, (pruneOlderThanMs (dbRetention now) (now - 48 * 3600000)).snapshots =
      [snapAt (now - 47 * 3600000)]) := by
  refine ⟨fun db cutoff r => ?_, fun db cutoff p => ?_, fun now => ?_⟩
  · simp [pruneOlderThanMs, List.mem_filter]
  · simp [pruneOlderThanMs, List.mem_filter]
  · have h1 : now - 49 * 3600000 < now - 48 * 3600000 := by omega
    have h2 : ¬ (now - 47 * 3600000 < now - 48 * 3600000) := by omega
    simp [pruneOlderThanMs, dbRetention, List.filter, snapAt, h1, h2]

/-- C7: every SnapshotRow and every PriceRow in the batch handed to the store
carries the run's single epoch timestamp, which is also the ts of the run
result. -/
theorem C7_epoch_uniform (cfg : SnapCfg) (now : Int) (tokens : List TokenRow)
    (chain : String → Option MintInfo)
    (quote : String → String → OutAmt → Option QuoteResp) (db : Db) :
    (snapshot cfg now tokens chain quote db).result.ts = now ∧
    ((snapshot cfg now tokens chain quote db).rows.all (fun r => decide (r.ts = now))) = true ∧
    ((snapshot cfg now tokens chain quote db).priceRows.all
      (fun p => decide (p.ts = now))) = true := by
  refine ⟨?_, ?_, ?_⟩
  · by_cases htok : tokens.isEmpty <;> simp [snapshot, htok]
  · by_cases htok : tokens.isEmpty
    · simp [snapshot, htok]
    · simp only [snapshot, htok, Bool.false_eq_true, if_false, List.all_eq_true,
        decide_eq_true_eq]
      intro r hr
      rcases mem_ite_map _ _ _ r hr with h | ⟨r0, h0, rfl⟩
      · exact chainPhase_ts now chain tokens r h
      · rw [mergeMetrics_ts]
        exact chainPhase_ts now chain tokens r0 h0
  · by_cases htok : tokens.isEmpty
    · simp [snapshot, htok]
    · simp only [snapshot, htok, Bool.false_eq_true, if_false, List.all_eq_true,
        decide_eq_true_eq]
      intro p hp
      rcases List.mem_append.mp hp with h | h
      · obtain ⟨t, _, ht⟩ := List.mem_filterMap.mp h
        obtain ⟨mid, _, rfl⟩ := Option.map_eq_some'.mp ht
        rfl
      · simp only [List.mem_singleton] at h
        rw [h]

/-- C8: for every limit and every environment state (missing, unparseable or
malformed cache file of any age; missing, unparseable, malformed or empty seed
file; failed, malformed or empty directory response), the resolver returns a
list — the directory list, a cached list, the seed-file list or the built-in
seed, each truncated to limit — and never an error. -/
theorem C8_resolver_total (limit : Nat) (offline : Bool) (baseMint : String)
    (now ttl : Int) (cache : CacheFile) (seed : SeedFile) (dir : DirResp) :
    (∃ es, dirToTokens dir = some es ∧
      (loadVerifiedTokens limit offline baseMint now ttl cache seed dir).1 = es.take limit) ∨
    (∃ cts citems, cache = CacheFile.doc cts citems ∧
      (loadVerifiedTokens limit offline baseMint now ttl cache seed dir).1 =
        citems.take limit) ∨
    (∃ sitems, seed = SeedFile.doc sitems ∧
      (loadVerifiedTokens limit offline baseMint now ttl cache seed dir).1 =
        sitems.take limit) ∨
    (loadVerifiedTokens limit offline baseMint now ttl cache seed dir).1 =
      (builtinSeed baseMint).take limit := by
  cases offline with
  | true =>
    have hres : (loadVerifiedTokens limit true baseMint now ttl cache seed dir).1 =
        (readCache cache now ttl limit true).getD (readSeed seed baseMint limit) := by
      simp [loadVerifiedTokens]
    rcases fallback_cases cache seed baseMint now ttl limit with
      ⟨cts, citems, hc, he⟩ | ⟨sitems, hs, he⟩ | he
    · exact Or.inr (Or.inl ⟨cts, citems, hc, by rw [hres, he]⟩)
    · exact Or.inr (Or.inr (Or.inl ⟨sitems, hs, by rw [hres, he]⟩))
    · exact Or.inr (Or.inr (Or.inr (by rw [hres, he])))
  | false =>
    cases h : readCache cache now ttl limit false with
    | some cached =>
      have hres : (loadVerifiedTokens limit false baseMint now ttl cache seed dir).1 =
          cached := by
        simp [loadVerifiedTokens, h]
      unfold readCache at h
      cases cache with
      | doc cts citems =>
        refine Or.inr (Or.inl ⟨cts, citems, rfl, ?_⟩)
        rw [hres]
        simp at h
        exact h.2.symm
      | absent => cases h
      | badJson => cases h
      | notObj => cases h
    | none =>
      cases hd : dirToTokens dir with
      | some tks =>
        by_cases hne : tks.isEmpty
        · have hres : (loadVerifiedTokens limit false baseMint now ttl cache seed dir).1 =
              ((readCache cache now ttl limit true).getD
                (readSeed seed baseMint limit)).take limit := by
            simp [loadVerifiedTokens, h, hd, hne]
          rcases fallback_cases cache seed baseMint now ttl limit with
            ⟨cts, citems, hc, he⟩ | ⟨sitems, hs, he⟩ | he
          · exact Or.inr (Or.inl ⟨cts, citems, hc, by
              rw [hres, he, List.take_take, Nat.min_self]⟩)
          · exact Or.inr (Or.inr (Or.inl ⟨sitems, hs, by
              rw [hres, he, List.take_take, Nat.min_self]⟩))
          · exact Or.inr (Or.inr (Or.inr (by
              rw [hres, he, List.take_take, Nat.min_self])))
        · refine Or.inl ⟨tks, rfl, ?_⟩
          simp [loadVerifiedTokens, h, hd, hne]
      | none =>
        have hres : (loadVerifiedTokens limit false baseMint now ttl cache seed dir).1 =
            ((readCache cache now ttl limit true).getD
              (readSeed seed baseMint limit)).take limit := by
          simp [loadVerifiedTokens, h, hd]
        rcases fallback_cases cache seed baseMint now ttl limit with
          ⟨cts, citems, hc, he⟩ | ⟨sitems, hs, he⟩ | he
        · exact Or.inr (Or.inl ⟨cts, citems, hc, by
            rw [hres, he, List.take_take, Nat.min_self]⟩)
        · exact Or.inr (Or.inr (Or.inl ⟨sitems, hs, by
            rw [hres, he, List.take_take, Nat.min_self]⟩))
        · exact Or.inr (Or.inr (Or.inr (by
            rw [hres, he, List.take_take, Nat.min_self])))

/-- C9: a run in which token X's on-chain lookup fails (so no SnapshotRow
exists for X, indeed none at all) while its round-trip quotes succeed with a
finite positive mid price (39/4) still pushes a PriceRow for X: the quote
fan-out iterates over the resolved universe independently of lookup success. -/
theorem C9_price_without_snapshot :
    (snapshot cfgBQ 1000 [tokB, tokX] (fun _ => none) quoteRoundTrip dbEmpty).priceRows =
      [{ ts := 1000, mint := "X", price_usd := 39 / 4 },
       { ts := 1000, mint := "B", price_usd := 1 }] ∧
    (snapshot cfgBQ 1000 [tokB, tokX] (fun _ => none) quoteRoundTrip dbEmpty).rows = [] := by
  have hxb : (("X" : String) = "B") = False := by simp
  have h6 : Int.toNat 6 = 6 := rfl
  have hq : quoteOne cfgBQ quoteRoundTrip tokX =
      ({ impact_1k_pct := none, spread_pct := some (200 / 39) }, some (39 / 4)) := by
    unfold quoteOne
    norm_num [cfgBQ, quoteRoundTrip, tokX, jsOr, jsEps, jpow10, amtOfInt, hxb, h6]
  have hB : tokB.address = "B" := rfl
  have hX : tokX.address = "X" := rfl
  have hbm : cfgBQ.baseMint = "B" := rfl
  have hqe : cfgBQ.quotesEnabled = true := rfl
  have hof : cfgBQ.offline = false := rfl
  have hmax : cfgBQ.quoteMaxTokens = 25 := rfl
  constructor
  · simp [snapshot, chainPhase, hq, hB, hX, hbm, hqe, hof, hmax, List.filter]
  · simp [snapshot, chainPhase, hq, hB, hX, hbm, hqe, hof, hmax, List.filter]

/-- C10: the decimals written into both the SnapshotRow and the
token-directory upsert prefer the directory entry's decimals; the on-chain
decimals is used only when the directory value is absent, and 0 when both are
absent — concretely, directory decimals 4 beats on-chain decimals 9. -/
theorem C10_decimals_precedence :
    (∀ (now : Int) (t : TokenRow) (mi : MintInfo),
      (mkSnapRow now t mi).decimals =
        (match t.decimals, mi.decimals with
         | some d, _ => d
         | none, some d => d
         | none, none => 0) ∧
      (mkDirRow t mi).decimals =
        (match t.decimals, mi.decimals with
         | some d, _ => d
         | none, some d => d
         | none, none => 0)) ∧
    (mkSnapRow 7 { address := "M", decimals := some 4 }
        { decimals := some 9, mintAuthorityIsNull := true, freezeAuthorityIsNull := true,
          isToken2022 := false }).decimals = 4 := by
  refine ⟨fun now t mi => ?_, by decide⟩
  cases ht : t.decimals <;> cases hmi : mi.decimals <;> simp [mkSnapRow, mkDirRow, ht, hmi]

end Sniper
